/- Formal model of the virtual-ascii video renderer: the matrix-rain
simulation (rain.rs), the brightness-curve and theme configuration
(config.rs), the ASCII renderer (renderer.rs) and the render worker's
rebuild handling (pipeline.rs), together with proofs of the specified
properties.

Modelling conventions:
* Machine integers are modelled as `Nat`/`Int` with explicit `% 2^w`
  where the source relies on wrapping (`as u16`, `as u32`, u64 shifts).
* `f32` values are modelled as exact rationals `ℚ`; the transcendental
  operations of the source (`exp` in the sigmoid curve, `sqrt` in the
  perceptual lift) are modelled over `ℝ` with `Real.exp`/`Real.sqrt`.
  Floating-point rounding, NaN and infinities are outside the model.
* `f32 as i32` casts truncate toward zero and saturate (`f32toI32`);
  `usize/u32 as i32` casts wrap (`i32ofNat`); `f32 as u8`/`u16` casts
  truncate toward zero and clamp (`f32toU8`, `f32toU16`).
* In-place mutation is modelled by state passing; the single xorshift64
  generator is threaded explicitly.  Where the source indexes a slice
  (panicking when out of bounds) the model uses `List.getD`/`List.set`;
  all claims proved here concern executions where those accesses are in
  bounds, matching how the program calls these functions.
* `MatrixRainState::new` seeds the generator from the wall clock; the
  model takes the seed as an explicit parameter.  `AsciiRenderer::render`
  reads the wall clock to obtain `dt`; the model takes `dt` as a
  parameter.  `GlyphCache::new` rasterizes with the external `fontdue`
  library; renderer construction is therefore parameterized by an
  abstract font backend producing a `GlyphCache`.
-/
import Mathlib

set_option maxHeartbeats 1000000

/-- An 8-bit RGB color (config.rs `Rgb`); channels are `u8` values. -/
structure Rgb where
  r : ℕ
  g : ℕ
  b : ℕ
deriving DecidableEq, Repr

/-- Bright white-green color for the rain head (rain.rs `HEAD_COLOR`). -/
def HEAD_COLOR : Rgb := { r := 220, g := 255, b := 220 }

/-- Brightness curve selection (config.rs `BrightnessCurve`). -/
inductive BrightnessCurve where
  | linear
  | exponential
  | sigmoid
deriving DecidableEq, Repr

/-- Map a brightness value through the curve (config.rs
`BrightnessCurve::apply`).  The sigmoid is renormalized by its values at
the endpoints, exactly as in the source. -/
noncomputable def BrightnessCurve.apply : BrightnessCurve → ℝ → ℝ
  | .linear, t => t
  | .exponential, t => t * t
  | .sigmoid, t =>
      let k : ℝ := 10
      let raw := 1 / (1 + Real.exp (-k * (t - 0.5)))
      let lo := 1 / (1 + Real.exp (k * 0.5))
      let hi := 1 / (1 + Real.exp (-k * 0.5))
      (raw - lo) / (hi - lo)

/-- Inline xorshift64 step (rain.rs `xorshift64`): the u64 state is a
natural number below `2^64`; u64 shifts discard overflowing bits, hence
the `% 2^64` after each left shift. -/
def xorshift64 (state : ℕ) : ℕ :=
  let x1 := state ^^^ ((state <<< 13) % 2 ^ 64)
  let x2 := x1 ^^^ (x1 >>> 7)
  x2 ^^^ ((x2 <<< 17) % 2 ^ 64)

/-- Truncation toward zero of a rational (the rounding used by Rust
float-to-integer casts). -/
def ratTrunc (q : ℚ) : ℤ :=
  if 0 ≤ q then ⌊q⌋ else -⌊-q⌋

/-- Rust `f32 as i32`: truncate toward zero, saturating at the i32 range. -/
def f32toI32 (q : ℚ) : ℤ :=
  max (-(2 ^ 31)) (min (2 ^ 31 - 1) (ratTrunc q))

/-- Rust `usize/u32 as i32`: wrap modulo `2^32` into the signed range. -/
def i32ofNat (n : ℕ) : ℤ :=
  if n % 2 ^ 32 < 2 ^ 31 then (n % 2 ^ 32 : ℤ) else (n % 2 ^ 32 : ℤ) - 2 ^ 32

/-- Rust `f32 as u8`: truncate toward zero and clamp to `0..=255`. -/
def f32toU8 (q : ℚ) : ℕ :=
  min 255 (ratTrunc q).toNat

/-- A single rain stream within a column (rain.rs `RainStream`). -/
structure RainStream where
  position : ℚ
  speed : ℚ
  trail_length : ℕ
  ghost_length : ℕ
deriving DecidableEq, Repr

/-- State for a single rain column (rain.rs `RainColumn`). -/
structure RainColumn where
  streams : List RainStream
  char_indices : List ℕ
  char_timers : List ℕ
  spawn_cooldown : ℕ
deriving DecidableEq, Repr

/-- The whole rain simulation state (rain.rs `MatrixRainState`). -/
structure MatrixRainState where
  columns : List RainColumn
  rows : ℕ
  cols : ℕ
  charset_len : ℕ
  rng : ℕ
  is_movie_mode : Bool
deriving DecidableEq, Repr

/-- Create a fresh stream (rain.rs `MatrixRainState::new_stream`);
returns the stream together with the updated rng state. -/
def newStream (rng : ℕ) (rows : ℕ) (is_movie_mode : Bool) : RainStream × ℕ :=
  let r1 := xorshift64 rng
  let speed : ℚ := 10 + ((r1 % 3500 : ℕ) : ℚ) / 100
  let min_trail := max (rows / 6) 3
  let max_trail := max (rows / 3) (min_trail + 1)
  let trail_range := max_trail - min_trail
  let r2 := xorshift64 r1
  let trail_length := min_trail + (r2 % 2 ^ 32) % (max trail_range 1)
  if is_movie_mode then
    let min_ghost := trail_length / 2
    let ghost_range := max (trail_length - min_ghost) 1
    let r3 := xorshift64 r2
    let ghost_length := max (min_ghost + (r3 % 2 ^ 32) % ghost_range) 1
    ({ position := 0, speed := speed, trail_length := trail_length,
       ghost_length := ghost_length }, r3)
  else
    ({ position := 0, speed := speed, trail_length := trail_length,
       ghost_length := 0 }, r2)

/-- Loop body drawing one random character index per row (rain.rs
`new_column`, first loop). -/
def charIndexStep (charset_len : ℕ) (acc : List ℕ × ℕ) (_i : ℕ) : List ℕ × ℕ :=
  if 0 < charset_len then
    let rx := xorshift64 acc.2
    (acc.1 ++ [rx % charset_len % 2 ^ 16], rx)
  else
    (acc.1 ++ [0], acc.2)

/-- Loop body drawing one mutation timer per row (rain.rs `new_column`,
movie-mode timer loop). -/
def charTimerStep (acc : List ℕ × ℕ) (_i : ℕ) : List ℕ × ℕ :=
  let rx := xorshift64 acc.2
  (acc.1 ++ [rx % 4 + 2], rx)

/-- Create a fresh column (rain.rs `MatrixRainState::new_column`). -/
def newColumn (rng : ℕ) (rows charset_len : ℕ) (is_movie_mode : Bool) :
    RainColumn × ℕ :=
  let p := newStream rng rows is_movie_mode
  let ci := (List.range rows).foldl (charIndexStep charset_len) ([], p.2)
  let ct : List ℕ × ℕ :=
    if is_movie_mode then
      (List.range rows).foldl charTimerStep ([], ci.2)
    else
      ([], ci.2)
  ({ streams := [p.1], char_indices := ci.1, char_timers := ct.1,
     spawn_cooldown := 0 }, ct.2)

/-- Loop body building one fresh column (rain.rs `new`, construction
loop). -/
def buildColumnStep (rows charset_len : ℕ) (is_movie_mode : Bool)
    (acc : List RainColumn × ℕ) (_i : ℕ) : List RainColumn × ℕ :=
  let p := newColumn acc.2 rows charset_len is_movie_mode
  (acc.1 ++ [p.1], p.2)

/-- Loop body staggering one column's initial dormancy and, for every
third column, its initial head position (rain.rs `new`, stagger loop). -/
def staggerStep (rows : ℕ) (acc : List RainColumn × ℕ)
    (p : ℕ × RainColumn) : List RainColumn × ℕ :=
  let r1 := xorshift64 acc.2
  let col1 := { p.2 with spawn_cooldown := r1 % 60 }
  if p.1 % 3 = 0 then
    match col1.streams with
    | [] => (acc.1 ++ [col1], r1)
    | s0 :: rest =>
      let r2 := xorshift64 r1
      let s0' := { s0 with position := -((r2 % rows : ℕ) : ℚ) }
      (acc.1 ++ [{ col1 with streams := s0' :: rest }], r2)
  else
    (acc.1 ++ [col1], r1)

/-- Construct the rain simulation (rain.rs `MatrixRainState::new`).  The
source seeds from the current time in nanoseconds; the seed is an
explicit parameter here.  `seed | 1` forces a nonzero generator state.
With `rows = 0` the source would panic on `% (rows as u64)` in the
stagger loop; the model's `% 0` is the identity there. -/
def MatrixRainState.new (cols rows charset_len : ℕ) (is_movie_mode : Bool)
    (seed : ℕ) : MatrixRainState :=
  let rng0 := seed % 2 ^ 64 ||| 1
  let built := (List.range cols).foldl
    (buildColumnStep rows charset_len is_movie_mode) ([], rng0)
  let st := built.1.enum.foldl (staggerStep rows) ([], built.2)
  { columns := st.1, rows := rows, cols := cols, charset_len := charset_len,
    rng := st.2, is_movie_mode := is_movie_mode }

/-- The row index (i32) just past a stream's combined trail (rain.rs
`advance`, the retention predicate). -/
def streamTrailEnd (s : RainStream) : ℤ :=
  f32toI32 s.position - i32ofNat s.trail_length - i32ofNat s.ghost_length

/-- Push a fresh stream into a column and arm the spawn cooldown.  This is
the common body of the two spawn sites in rain.rs `advance` (the
empty-column respawn and the spawn-into-capacity case): both push a new
stream and set `spawn_cooldown = xorshift64 % 40 + 20`. -/
def spawnIntoColumn (rng : ℕ) (rows : ℕ) (is_movie_mode : Bool)
    (col : RainColumn) : RainColumn × ℕ :=
  let p := newStream rng rows is_movie_mode
  let r2 := xorshift64 p.2
  ({ col with
      streams := col.streams ++ [p.1],
      spawn_cooldown := r2 % 40 + 20 }, r2)

/-- Loop body of the movie-mode mutation pass for one row (rain.rs
`advance`, movie branch).  The fold state carries the column's character
indices, its timers, and the rng. -/
def movieMutateStep (charset_len : ℕ) (streams : List RainStream)
    (acc : (List ℕ × List ℕ) × ℕ) (row_idx : ℕ) : (List ℕ × List ℕ) × ℕ :=
  if row_idx < acc.1.2.length then
    if acc.1.2.getD row_idx 0 = 0 then
      let q : List ℕ × ℕ :=
        if 0 < charset_len then
          let rx := xorshift64 acc.2
          (acc.1.1.set row_idx (rx % charset_len % 2 ^ 16), rx)
        else
          (acc.1.1, acc.2)
      let in_active := streams.any (fun s =>
        let head := f32toI32 s.position
        let dist := head - i32ofNat row_idx
        decide (0 ≤ dist ∧ dist.toNat < s.trail_length))
      let r2 := xorshift64 q.2
      let reset := if in_active then r2 % 3 + 2 else r2 % 5 + 4
      ((q.1, acc.1.2.set row_idx reset), r2)
    else
      ((acc.1.1, acc.1.2.set row_idx (acc.1.2.getD row_idx 0 - 1)), acc.2)
  else
    acc

/-- Movie-mode per-row character mutation (rain.rs `advance`, movie
branch).  Each row whose timer reached zero mutates its character (when
the charset is non-empty) and re-arms the timer — faster inside an
active trail — and other rows count down. -/
def movieMutate (rows charset_len : ℕ) (rng : ℕ) (col : RainColumn) :
    RainColumn × ℕ :=
  let res := (List.range rows).foldl (movieMutateStep charset_len col.streams)
    ((col.char_indices, col.char_timers), rng)
  ({ col with char_indices := res.1.1, char_timers := res.1.2 }, res.2)

/-- Loop body of the classic-mode mutation pass for one head offset
(rain.rs `advance`, classic branch). -/
def classicMutateStep (rows charset_len : ℕ) (head_row : ℤ)
    (acc : List ℕ × ℕ) (offset : ℕ) : List ℕ × ℕ :=
  let r := head_row - (offset : ℤ)
  if 0 ≤ r ∧ r.toNat < rows then
    if 0 < charset_len then
      let rx := xorshift64 acc.2
      (acc.1.set r.toNat (rx % charset_len % 2 ^ 16), rx)
    else
      acc
  else
    acc

/-- Classic-mode mutation (rain.rs `advance`, classic branch): randomize
the three rows at and just above the first stream's head. -/
def classicMutate (rows charset_len : ℕ) (rng : ℕ) (col : RainColumn) :
    RainColumn × ℕ :=
  match col.streams.head? with
  | none => (col, rng)
  | some s =>
    let head_row := f32toI32 s.position
    let res := (List.range 3).foldl (classicMutateStep rows charset_len head_row)
      (col.char_indices, rng)
    ({ col with char_indices := res.1 }, res.2)

/-- Advance one rain column by `dt` seconds: move all stream heads,
mutate characters, retire streams whose full trail has exited the bottom,
and spawn replacements (rain.rs `advance`, loop body). -/
def advanceColumn (rows charset_len : ℕ) (is_movie_mode : Bool)
    (max_streams : ℕ) (dt : ℚ) (rng : ℕ) (col : RainColumn) :
    RainColumn × ℕ :=
  let col1 := { col with
    streams := col.streams.map
      (fun s => { s with position := s.position + s.speed * dt }) }
  let p :=
    if is_movie_mode then movieMutate rows charset_len rng col1
    else classicMutate rows charset_len rng col1
  let col3 := { p.1 with
    streams := p.1.streams.filter
      (fun s => decide (streamTrailEnd s ≤ i32ofNat rows)) }
  if col3.streams.isEmpty then
    spawnIntoColumn p.2 rows is_movie_mode col3
  else if 0 < col3.spawn_cooldown then
    ({ col3 with spawn_cooldown := col3.spawn_cooldown - 1 }, p.2)
  else if col3.streams.length < max_streams then
    spawnIntoColumn p.2 rows is_movie_mode col3
  else
    (col3, p.2)

/-- Loop body advancing one column inside `advance`. -/
def advanceFoldStep (rows charset_len : ℕ) (is_movie_mode : Bool)
    (max_streams : ℕ) (dt : ℚ) (acc : List RainColumn × ℕ)
    (col : RainColumn) : List RainColumn × ℕ :=
  let p := advanceColumn rows charset_len is_movie_mode max_streams dt
    acc.2 col
  (acc.1 ++ [p.1], p.2)

/-- Advance all rain columns by `dt` seconds, frame-rate independent
(rain.rs `MatrixRainState::advance`). -/
def MatrixRainState.advance (s : MatrixRainState) (dt : ℚ) : MatrixRainState :=
  let max_streams := if s.is_movie_mode then 3 else 1
  let res := s.columns.foldl
    (advanceFoldStep s.rows s.charset_len s.is_movie_mode max_streams dt)
    ([], s.rng)
  { s with columns := res.1, rng := res.2 }

/-- Quadratic active-trail decay `(1 - d/trail)^2` (rain.rs
`compute_cells`, active-trail branch). -/
def activeIntensity (trail d : ℕ) : ℚ :=
  (1 - (d : ℚ) / (trail : ℚ)) * (1 - (d : ℚ) / (trail : ℚ))

/-- Ghost-trail afterglow `0.18 * (1 - (d-trail)/ghost)^2` (rain.rs
`compute_cells`, ghost-trail branch). -/
def ghostIntensity (trail ghost d : ℕ) : ℚ :=
  0.18 * (1 - ((d - trail : ℕ) : ℚ) / (ghost : ℚ))
       * (1 - ((d - trail : ℕ) : ℚ) / (ghost : ℚ))

/-- Head color blending (rain.rs `compute_cells`): the head row is drawn
in `HEAD_COLOR`, rows at distance up to 3 blend linearly toward the
foreground color, the rest use the foreground color. -/
def colorFor (distance : ℤ) (fg : Rgb) : Rgb :=
  if distance ≤ 0 then HEAD_COLOR
  else if distance ≤ 3 then
    let blend : ℚ := (distance : ℚ) / 3
    { r := f32toU8 ((HEAD_COLOR.r : ℚ) * (1 - blend) + (fg.r : ℚ) * blend),
      g := f32toU8 ((HEAD_COLOR.g : ℚ) * (1 - blend) + (fg.g : ℚ) * blend),
      b := f32toU8 ((HEAD_COLOR.b : ℚ) * (1 - blend) + (fg.b : ℚ) * blend) }
  else fg

/-- Intensity and color a single stream contributes to a row, `none` when
the stream does not cover the row (rain.rs `compute_cells`, per-stream
regime selection). -/
def streamContribution (fg : Rgb) (row : ℕ) (s : RainStream) :
    Option (ℚ × Rgb) :=
  if s.trail_length = 0 then none
  else
    let head_row := f32toI32 s.position
    let distance := head_row - i32ofNat row
    if distance < 0 then none
    else
      let dist := distance.toNat
      if dist < s.trail_length then
        some (activeIntensity s.trail_length dist, colorFor distance fg)
      else if 0 < s.ghost_length ∧ dist < s.trail_length + s.ghost_length then
        some (ghostIntensity s.trail_length s.ghost_length dist,
              colorFor distance fg)
      else none

/-- One step of the best-stream fold: keep the strictly better
contribution (rain.rs `compute_cells`, the per-stream comparison against
`best_intensity`). -/
def bestStreamStep (fg : Rgb) (row : ℕ) (acc : ℚ × Rgb × Bool)
    (s : RainStream) : ℚ × Rgb × Bool :=
  match streamContribution fg row s with
  | none => acc
  | some (i, c) => if acc.1 < i then (i, c, true) else acc

/-- Select the stream with maximal intensity at a row (rain.rs
`compute_cells`, the best-stream fold): returns the winning intensity,
its color, and whether any stream covers the row. -/
def bestStream (fg : Rgb) (row : ℕ) (streams : List RainStream) :
    ℚ × Rgb × Bool :=
  streams.foldl (bestStreamStep fg row) (0, fg, false)

/-- Per-cell render instruction (rain.rs `CellRender`). -/
structure CellRender where
  ch : Char
  color : Rgb
  intensity : ℝ

/-- Combine rain state with the webcam brightness grid into per-cell
render instructions (rain.rs `MatrixRainState::compute_cells`). -/
noncomputable def MatrixRainState.computeCells (s : MatrixRainState)
    (grid : List ℝ) (charset : List Char) (curve : BrightnessCurve)
    (invert : Bool) (fg : Rgb) : List CellRender :=
  let cols := s.cols
  let n := charset.length
  let bg_factor : ℝ := 0.55
  (List.range s.rows).flatMap (fun row =>
    (List.range cols).map (fun col =>
      let rain_col := s.columns.getD col
        { streams := [], char_indices := [], char_timers := [],
          spawn_cooldown := 0 }
      let wb0 := curve.apply (grid.getD (row * cols + col) 0)
      let wb := if invert then 1 - wb0 else wb0
      let best := bestStream fg row rain_col.streams
      if best.2.2 then
        let brightness : ℝ := (best.1 : ℝ) * (0.35 + 0.65 * wb)
        let ch := if 0 < n then
            charset.getD (rain_col.char_indices.getD row 0 % n) '#'
          else '#'
        { ch := ch, color := best.2.1, intensity := brightness }
      else if s.is_movie_mode then
        let ch := if 0 < n then
            charset.getD (rain_col.char_indices.getD row 0 % n) '#'
          else '#'
        { ch := ch, color := fg, intensity := 0.06 + wb * 0.55 }
      else
        let brightness := wb * bg_factor
        let ch := if 0 < n then
            charset.getD (min (round (wb * ((n - 1 : ℕ) : ℝ))).toNat (n - 1)) ' '
          else ' '
        { ch := ch, color := fg, intensity := brightness }))

/-! ### Renderer data model (glyph_cache.rs, renderer.rs, pipeline.rs) -/

/-- Bloom downsample factor (renderer.rs `BLOOM_DS_FACTOR`). -/
def BLOOM_DS_FACTOR : ℕ := 4

/-- Bloom blur radius (renderer.rs `BLOOM_BLUR_RADIUS`). -/
def BLOOM_BLUR_RADIUS : ℕ := 12

/-- Bloom blur passes (renderer.rs `BLOOM_BLUR_PASSES`). -/
def BLOOM_BLUR_PASSES : ℕ := 3

/-- Bloom threshold subtracted per channel before averaging (renderer.rs
`BLOOM_THRESHOLD`). -/
def BLOOM_THRESHOLD : ℕ := 12

/-- Pre-dilated glyph variant (glyph_cache.rs `GlowGlyph`). -/
structure GlowGlyph where
  coverage : List ℕ
  width : ℕ
  height : ℕ
  xmin : ℤ
  ymin : ℤ
deriving DecidableEq, Repr

/-- An anti-aliased rasterized character (glyph_cache.rs `GlyphBitmap`). -/
structure GlyphBitmap where
  coverage : List ℕ
  width : ℕ
  height : ℕ
  xmin : ℤ
  ymin : ℤ
  glow : Option GlowGlyph
deriving DecidableEq, Repr

/-- The glyph table with uniform cell metrics (glyph_cache.rs
`GlyphCache`).  The hash map is modelled as a lookup function; its
contents come from the external `fontdue` rasterizer. -/
structure GlyphCache where
  glyphs : Char → Option GlyphBitmap
  cell_width : ℕ
  cell_height : ℕ
  ascent : ℚ

/-- Glyph lookup (glyph_cache.rs `GlyphCache::get`). -/
def GlyphCache.get (c : GlyphCache) (ch : Char) : Option GlyphBitmap :=
  c.glyphs ch

/-- The frame renderer (renderer.rs `AsciiRenderer`).  The bloom scratch
buffers are omitted: they are fully overwritten on every use, so bloom is
a pure function here; `last_render` is replaced by the explicit `dt`
parameter of `render`. -/
structure AsciiRenderer where
  glyph_cache : GlyphCache
  charset : List Char
  fg : Rgb
  bg : Rgb
  brightness_curve : BrightnessCurve
  invert : Bool
  output_width : ℕ
  output_height : ℕ
  ascii_cols : ℕ
  ascii_rows : ℕ
  ascent : ℚ
  rain_state : Option MatrixRainState
  is_color_mode : Bool

/-- The external font rasterizer: stands for glyph_cache.rs
`GlyphCache::new`, whose outcome (including failure) is determined by the
embedded font files and the `fontdue` library, both outside this model.
Arguments are charset, font size, mirror flag and bold flag. -/
def FontBackend : Type := List Char → ℚ → Bool → Bool → Except String GlyphCache

/-- Renderer construction (renderer.rs `AsciiRenderer::new`): probe the
font at a reference size, solve for the font size that makes
`ascii_columns` fill `output_width`, build the glyph cache, derive the
grid dimensions, and fail when the cell or grid dimensions are zero.
The rain-state seed is the explicit `seed` parameter. -/
def AsciiRenderer.new (fontNew : FontBackend) (seed : ℕ) (charset : List Char)
    (fg bg : Rgb) (brightness_curve : BrightnessCurve) (invert : Bool)
    (output_width output_height ascii_columns : ℕ) (theme_name : String) :
    Except String AsciiRenderer :=
  let probe_size : ℚ := 100
  let mirror := theme_name == "matrix"
  let bold := theme_name == "matrix"
  match fontNew charset probe_size mirror false with
  | .error e => .error e
  | .ok probe_cache =>
    let advance_per_unit : ℚ := (probe_cache.cell_width : ℚ) / probe_size
    let desired_cell_width : ℚ := (output_width : ℚ) / (ascii_columns : ℚ)
    let font_size : ℚ := max (desired_cell_width / advance_per_unit) 6
    match fontNew charset font_size mirror bold with
    | .error e => .error e
    | .ok glyph_cache =>
      let cell_w := glyph_cache.cell_width
      let cell_h := glyph_cache.cell_height
      if cell_w = 0 ∨ cell_h = 0 then
        .error ("Glyph cell dimensions are zero")
      else
        let ascii_cols := min ascii_columns (output_width / cell_w)
        let ascii_rows := output_height / cell_h
        if ascii_cols = 0 ∨ ascii_rows = 0 then
          .error ("Output " ++ toString output_width ++ "x"
            ++ toString output_height ++ " too small for font size "
            ++ toString font_size ++ " (cell " ++ toString cell_w ++ "x"
            ++ toString cell_h ++ ")")
        else
          let rain_state :=
            if theme_name == "matrix" then
              some (MatrixRainState.new ascii_cols ascii_rows charset.length
                true seed)
            else none
          .ok { glyph_cache := glyph_cache, charset := charset, fg := fg,
                bg := bg, brightness_curve := brightness_curve,
                invert := invert, output_width := output_width,
                output_height := output_height, ascii_cols := ascii_cols,
                ascii_rows := ascii_rows, ascent := glyph_cache.ascent,
                rain_state := rain_state,
                is_color_mode := theme_name == "color" }

/-- A render-thread rebuild command (pipeline.rs `RenderAction::Rebuild`). -/
structure RebuildCmd where
  charset : List Char
  ascii_columns : ℕ
  fg : Rgb
  bg : Rgb
  brightness_curve : BrightnessCurve
  invert : Bool
  theme_name : String

/-- The render worker's handling of one `Rebuild` command (pipeline.rs,
render thread command drain): construct a new renderer at the current
output dimensions; on success it replaces the active renderer and the
reply channel gets `Ok`, on failure the previous renderer is kept and the
reply channel gets `Err`.  Returns the renderer active afterwards and
the reply sent. -/
def handleRebuild (fontNew : FontBackend) (seed : ℕ)
    (renderer : AsciiRenderer) (cmd : RebuildCmd) :
    AsciiRenderer × Except String String :=
  match AsciiRenderer.new fontNew seed cmd.charset cmd.fg cmd.bg
    cmd.brightness_curve cmd.invert renderer.output_width
    renderer.output_height cmd.ascii_columns cmd.theme_name with
  | .ok new_renderer =>
    (new_renderer,
     .ok ("renderer rebuilt (" ++ toString cmd.ascii_columns ++ " cols)"))
  | .error e => (renderer, .error e)

/-! ### Frame rendering (renderer.rs) -/

/-- The output buffer after allocation and background fill (renderer.rs
`render`, first two steps): `output_width * output_height` pixels, three
bytes each, every pixel set to the background color. -/
def bgFill (r : AsciiRenderer) : List ℕ :=
  (List.replicate (r.output_width * r.output_height)
    [r.bg.r, r.bg.g, r.bg.b]).flatten

/-- Rec. 709 luminance grayscale conversion (renderer.rs
`rgb_to_grayscale`). -/
def rgbToGrayscale (rgb : List ℕ) (width height : ℕ) : List ℕ :=
  (List.range (width * height)).map (fun i =>
    let rc : ℚ := (rgb.getD (i * 3) 0 : ℕ)
    let gc : ℚ := (rgb.getD (i * 3 + 1) 0 : ℕ)
    let bc : ℚ := (rgb.getD (i * 3 + 2) 0 : ℕ)
    min 255 (round (0.2126 * rc + 0.7152 * gc + 0.0722 * bc)).toNat)

/-- Block-average the grayscale image down to the ASCII grid, normalized
to `[0,1]` (renderer.rs `downsample_to_grid`). -/
def downsampleToGrid (r : AsciiRenderer) (gray : List ℕ)
    (src_w src_h : ℕ) : List ℚ :=
  let cols := r.ascii_cols
  let rows := r.ascii_rows
  let cell_src_w : ℚ := (src_w : ℚ) / (cols : ℚ)
  let cell_src_h : ℚ := (src_h : ℚ) / (rows : ℚ)
  (List.range rows).flatMap (fun (row : ℕ) =>
    (List.range cols).map (fun (col : ℕ) =>
      let x0 := (ratTrunc ((col : ℚ) * cell_src_w)).toNat
      let y0 := (ratTrunc ((row : ℚ) * cell_src_h)).toNat
      let x1 := min (ratTrunc (((col : ℚ) + 1) * cell_src_w)).toNat src_w
      let y1 := min (ratTrunc (((row : ℚ) + 1) * cell_src_h)).toNat src_h
      let vals := (List.range' y0 (y1 - y0)).flatMap (fun y =>
        (List.range' x0 (x1 - x0)).map (fun x => gray.getD (y * src_w + x) 0))
      if 0 < vals.length then
        ((vals.sum : ℕ) : ℚ) / (vals.length : ℚ) / 255
      else 0))

/-- Block-average the RGB frame into per-cell colors (renderer.rs
`downsample_to_color_grid`; note its `min` is applied to the f32 value
before the integer cast, unlike `downsample_to_grid`). -/
def downsampleToColorGrid (r : AsciiRenderer) (rgb : List ℕ)
    (src_w src_h : ℕ) : List Rgb :=
  let cols := r.ascii_cols
  let rows := r.ascii_rows
  let cell_src_w : ℚ := (src_w : ℚ) / (cols : ℚ)
  let cell_src_h : ℚ := (src_h : ℚ) / (rows : ℚ)
  (List.range rows).flatMap (fun (row : ℕ) =>
    (List.range cols).map (fun (col : ℕ) =>
      let x0 := (ratTrunc ((col : ℚ) * cell_src_w)).toNat
      let y0 := (ratTrunc ((row : ℚ) * cell_src_h)).toNat
      let x1 := (ratTrunc (min (((col : ℚ) + 1) * cell_src_w)
        (src_w : ℚ))).toNat
      let y1 := (ratTrunc (min (((row : ℚ) + 1) * cell_src_h)
        (src_h : ℚ))).toNat
      let pts := (List.range' y0 (y1 - y0)).flatMap (fun y =>
        (List.range' x0 (x1 - x0)).map (fun x => (y * src_w + x) * 3))
      if 0 < pts.length then
        { r := (pts.map (fun idx => rgb.getD idx 0)).sum / pts.length,
          g := (pts.map (fun idx => rgb.getD (idx + 1) 0)).sum / pts.length,
          b := (pts.map (fun idx => rgb.getD (idx + 2) 0)).sum / pts.length }
      else
        { r := 0, g := 0, b := 0 }))

/-- The character index selected for one brightness value (renderer.rs
`map_to_characters`, per-element): curve, optional inversion, rounding
to the nearest character, clamped to the last index. -/
noncomputable def mapCharIndex (r : AsciiRenderer) (brightness : ℝ) : ℕ :=
  let n := r.charset.length
  let t0 := r.brightness_curve.apply brightness
  let t := if r.invert then 1 - t0 else t0
  min (round (t * ((n - 1 : ℕ) : ℝ))).toNat (n - 1)

/-- Map the brightness grid to characters (renderer.rs
`map_to_characters`). -/
noncomputable def mapToCharacters (r : AsciiRenderer) (grid : List ℝ) :
    List Char :=
  if r.charset.length = 0 then List.replicate grid.length ' '
  else grid.map (fun b => r.charset.getD (mapCharIndex r b) ' ')

/-- Rust `f32 as u16`: truncate toward zero and clamp to `0..=65535`. -/
noncomputable def f32toU16 (x : ℝ) : ℕ :=
  min 65535 ⌊x⌋.toNat

/-- Blit one glyph with alpha blending against the flat foreground color
(renderer.rs `composite_glyphs`, inner blit loops). -/
def blitGlyph (out_w out_h : ℕ) (fg : Rgb) (glyph_x glyph_y : ℤ)
    (gw gh : ℕ) (coverage : List ℕ) (output : List ℕ) : List ℕ :=
  (List.range gh).foldl (fun out (gy : ℕ) =>
    let out_y := glyph_y + (gy : ℤ)
    if out_y < 0 ∨ (out_h : ℤ) ≤ out_y then out
    else
      (List.range gw).foldl (fun out (gx : ℕ) =>
        let out_x := glyph_x + (gx : ℤ)
        if out_x < 0 ∨ (out_w : ℤ) ≤ out_x then out
        else
          let alpha := coverage.getD (gy * gw + gx) 0
          if alpha = 0 then out
          else
            let idx := (out_y.toNat * out_w + out_x.toNat) * 3
            if alpha = 255 then
              ((out.set idx fg.r).set (idx + 1) fg.g).set (idx + 2) fg.b
            else
              let inv_a := 255 - alpha
              let o0 := out.getD idx 0
              let o1 := out.getD (idx + 1) 0
              let o2 := out.getD (idx + 2) 0
              ((out.set idx ((fg.r * alpha + o0 * inv_a) / 255)).set
                (idx + 1) ((fg.g * alpha + o1 * inv_a) / 255)).set
                (idx + 2) ((fg.b * alpha + o2 * inv_a) / 255)) out) output

/-- Composite brightness-mapped characters over the background
(renderer.rs `composite_glyphs`). -/
def compositeGlyphs (r : AsciiRenderer) (chars : List Char)
    (output : List ℕ) : List ℕ :=
  let out_w := r.output_width
  let cell_w := r.glyph_cache.cell_width
  let cell_h := r.glyph_cache.cell_height
  (List.range r.ascii_rows).foldl (fun out row =>
    (List.range r.ascii_cols).foldl (fun out col =>
      let ch := chars.getD (row * r.ascii_cols + col) ' '
      if ch = ' ' then out
      else
        match r.glyph_cache.get ch with
        | none => out
        | some glyph =>
          if glyph.width = 0 ∨ glyph.height = 0 then out
          else
            let glyph_x := ((col * cell_w : ℕ) : ℤ) + glyph.xmin
            let glyph_y := ((row * cell_h : ℕ) : ℤ) +
              (f32toI32 r.ascent - glyph.ymin - (glyph.height : ℤ))
            blitGlyph out_w r.output_height r.fg glyph_x glyph_y glyph.width
              glyph.height glyph.coverage out) out) output

/-- Blit one glyph modulated by an intensity-scaled color (renderer.rs
`composite_rain_glyphs`, plain blit loops). -/
def blitRainGlyph (out_w out_h : ℕ) (eff_r eff_g eff_b : ℕ)
    (glyph_x glyph_y : ℤ) (gw gh : ℕ) (coverage : List ℕ)
    (output : List ℕ) : List ℕ :=
  (List.range gh).foldl (fun out (gy : ℕ) =>
    let out_y := glyph_y + (gy : ℤ)
    if out_y < 0 ∨ (out_h : ℤ) ≤ out_y then out
    else
      (List.range gw).foldl (fun out (gx : ℕ) =>
        let out_x := glyph_x + (gx : ℤ)
        if out_x < 0 ∨ (out_w : ℤ) ≤ out_x then out
        else
          let alpha := coverage.getD (gy * gw + gx) 0
          if alpha = 0 then out
          else
            let idx := (out_y.toNat * out_w + out_x.toNat) * 3
            let inv_a := 255 - alpha
            let o0 := out.getD idx 0
            let o1 := out.getD (idx + 1) 0
            let o2 := out.getD (idx + 2) 0
            ((out.set idx ((eff_r * alpha + o0 * inv_a) / 255)).set
              (idx + 1) ((eff_g * alpha + o1 * inv_a) / 255)).set
              (idx + 2) ((eff_b * alpha + o2 * inv_a) / 255)) out) output

/-- Blit a glyph's glow variant, blending between base and dilated
coverage per pixel (renderer.rs `composite_rain_glyphs`, glow branch). -/
noncomputable def blitGlowGlyph (out_w out_h : ℕ) (eff_r eff_g eff_b : ℕ)
    (glyph : GlyphBitmap) (glow : GlowGlyph) (glow_blend : ℝ)
    (glow_x glow_y : ℤ) (output : List ℕ) : List ℕ :=
  let expand : ℤ := glyph.xmin - glow.xmin
  (List.range glow.height).foldl (fun out (gy : ℕ) =>
    let out_y := glow_y + (gy : ℤ)
    if out_y < 0 ∨ (out_h : ℤ) ≤ out_y then out
    else
      (List.range glow.width).foldl (fun out (gx : ℕ) =>
        let out_x := glow_x + (gx : ℤ)
        if out_x < 0 ∨ (out_w : ℤ) ≤ out_x then out
        else
          let glow_a : ℝ := (glow.coverage.getD (gy * glow.width + gx) 0 : ℕ)
          let bx := (gx : ℤ) - expand
          let bb := (gy : ℤ) - expand
          let base_a : ℝ :=
            if 0 ≤ bx ∧ bx.toNat < glyph.width ∧ 0 ≤ bb ∧
                bb.toNat < glyph.height then
              (glyph.coverage.getD (bb.toNat * glyph.width + bx.toNat) 0 : ℕ)
            else 0
          let alpha := f32toU16 (base_a + (glow_a - base_a) * glow_blend)
          if alpha = 0 then out
          else
            let idx := (out_y.toNat * out_w + out_x.toNat) * 3
            let inv_a := 255 - alpha
            let o0 := out.getD idx 0
            let o1 := out.getD (idx + 1) 0
            let o2 := out.getD (idx + 2) 0
            ((out.set idx ((eff_r * alpha + o0 * inv_a) / 255)).set
              (idx + 1) ((eff_g * alpha + o1 * inv_a) / 255)).set
              (idx + 2) ((eff_b * alpha + o2 * inv_a) / 255)) out) output

/-- Composite rain cells over the background, with per-intensity glow
(renderer.rs `composite_rain_glyphs`). -/
noncomputable def compositeRainGlyphs (r : AsciiRenderer)
    (cells : List CellRender) (output : List ℕ) : List ℕ :=
  let out_w := r.output_width
  let cell_w := r.glyph_cache.cell_width
  let cell_h := r.glyph_cache.cell_height
  (List.range r.ascii_rows).foldl (fun out row =>
    (List.range r.ascii_cols).foldl (fun out col =>
      let cell := cells.getD (row * r.ascii_cols + col) ⟨' ', r.fg, 0⟩
      if cell.ch = ' ' ∨ cell.intensity < 0.005 then out
      else
        match r.glyph_cache.get cell.ch with
        | none => out
        | some glyph =>
          if glyph.width = 0 ∨ glyph.height = 0 then out
          else
            let eff_r := f32toU16 ((cell.color.r : ℝ) * cell.intensity)
            let eff_g := f32toU16 ((cell.color.g : ℝ) * cell.intensity)
            let eff_b := f32toU16 ((cell.color.b : ℝ) * cell.intensity)
            let cell_x := col * cell_w
            let cell_y := row * cell_h
            match glyph.glow with
            | some glow =>
              if 0.2 < cell.intensity then
                let gb0 : ℝ := min ((cell.intensity - 0.2) / 0.8) 1
                let glow_x := (cell_x : ℤ) + glow.xmin
                let glow_y := (cell_y : ℤ) +
                  (f32toI32 r.ascent - glow.ymin - (glow.height : ℤ))
                blitGlowGlyph out_w r.output_height eff_r eff_g eff_b glyph
                  glow (gb0 * gb0) glow_x glow_y out
              else
                let glyph_x := (cell_x : ℤ) + glyph.xmin
                let glyph_y := (cell_y : ℤ) +
                  (f32toI32 r.ascent - glyph.ymin - (glyph.height : ℤ))
                blitRainGlyph out_w r.output_height eff_r eff_g eff_b glyph_x
                  glyph_y glyph.width glyph.height glyph.coverage out
            | none =>
              let glyph_x := (cell_x : ℤ) + glyph.xmin
              let glyph_y := (cell_y : ℤ) +
                (f32toI32 r.ascent - glyph.ymin - (glyph.height : ℤ))
              blitRainGlyph out_w r.output_height eff_r eff_g eff_b glyph_x
                glyph_y glyph.width glyph.height glyph.coverage out) out)
    output

/-- Bloom step 1 (renderer.rs `apply_bloom`): downsample by averaging
each 4x4 block after subtracting the brightness floor per channel
(`saturating_sub`, which is natural subtraction here). -/
def bloomDownsample (output : List ℕ) (width height ds_w ds_h : ℕ) :
    List ℕ :=
  let block := BLOOM_DS_FACTOR
  let count := block * block
  (List.range ds_h).flatMap (fun bi =>
    (List.range ds_w).flatMap (fun bx =>
      let pts := (List.range block).flatMap (fun dy =>
        let sy := bi * block + dy
        if sy < height then
          (List.range block).filterMap (fun dx =>
            let sx := bx * block + dx
            if sx < width then some (sy * width * 3 + sx * 3) else none)
        else [])
      [(pts.map (fun idx => output.getD idx 0 - BLOOM_THRESHOLD)).sum / count,
       (pts.map (fun idx => output.getD (idx + 1) 0 - BLOOM_THRESHOLD)).sum
         / count,
       (pts.map (fun idx => output.getD (idx + 2) 0 - BLOOM_THRESHOLD)).sum
         / count]))

/-- Horizontal box blur with clamp-to-edge boundaries (renderer.rs
`box_blur_h`).  The source maintains the window sum incrementally; the
value written at each pixel is exactly the clamped window sum divided by
the window size, which is what this definition computes directly. -/
def boxBlurH (src : List ℕ) (w h radius : ℕ) : List ℕ :=
  let d := 2 * radius + 1
  (List.range h).flatMap (fun y =>
    (List.range w).flatMap (fun x =>
      ([0, 1, 2] : List ℕ).map (fun c =>
        ((List.range d).map (fun i =>
          let xi : ℤ := (x : ℤ) + (i : ℤ) - (radius : ℤ)
          let cx := (max 0 (min xi ((w : ℤ) - 1))).toNat
          src.getD (y * w * 3 + cx * 3 + c) 0)).sum / d)))

/-- Vertical box blur with clamp-to-edge boundaries (renderer.rs
`box_blur_v`), same windowed-mean semantics as `boxBlurH`. -/
def boxBlurV (src : List ℕ) (w h radius : ℕ) : List ℕ :=
  let d := 2 * radius + 1
  (List.range h).flatMap (fun y =>
    (List.range w).flatMap (fun x =>
      ([0, 1, 2] : List ℕ).map (fun c =>
        ((List.range d).map (fun i =>
          let yi : ℤ := (y : ℤ) + (i : ℤ) - (radius : ℤ)
          let cy := (max 0 (min yi ((h : ℤ) - 1))).toNat
          src.getD (cy * w * 3 + x * 3 + c) 0)).sum / d)))

/-- Bloom step 3 (renderer.rs `apply_bloom`): bilinear upscale of the
blurred buffer and additive blend into the output, fixed-point 8.8, with
strength `(BLOOM_STRENGTH * 256) = 256` and saturating u8 addition. -/
def bloomUpscale (output blurred : List ℕ) (width height ds_w ds_h : ℕ) :
    List ℕ :=
  let strength : ℕ := 256
  (List.range height).flatMap (fun y =>
    let fy0 : ℚ := ((y : ℚ) + 0.5) / (BLOOM_DS_FACTOR : ℚ) - 0.5
    let fy := min (max fy0 0) (((ds_h - 1 : ℕ) : ℚ))
    let iy := min (ratTrunc fy).toNat (ds_h - 2)
    let fy_frac := (ratTrunc ((fy - (iy : ℚ)) * 256)).toNat
    let inv_fy := 256 - fy_frac
    let row0 := iy * ds_w * 3
    let row1 := (iy + 1) * ds_w * 3
    (List.range width).flatMap (fun x =>
      let fx0 : ℚ := ((x : ℚ) + 0.5) / (BLOOM_DS_FACTOR : ℚ) - 0.5
      let fx := min (max fx0 0) (((ds_w - 1 : ℕ) : ℚ))
      let ix := min (ratTrunc fx).toNat (ds_w - 2)
      let fx_frac := (ratTrunc ((fx - (ix : ℚ)) * 256)).toNat
      let inv_fx := 256 - fx_frac
      let out_idx := (y * width + x) * 3
      ([0, 1, 2] : List ℕ).map (fun c =>
        let v00 := blurred.getD (row0 + ix * 3 + c) 0
        let v10 := blurred.getD (row0 + (ix + 1) * 3 + c) 0
        let v01 := blurred.getD (row1 + ix * 3 + c) 0
        let v11 := blurred.getD (row1 + (ix + 1) * 3 + c) 0
        let top := (v00 * inv_fx + v10 * fx_frac) / 256
        let bot := (v01 * inv_fx + v11 * fx_frac) / 256
        let val := (top * inv_fy + bot * fy_frac) / 256
        let bloom_val := val * strength / 256
        min 255 (output.getD (out_idx + c) 0 + min bloom_val 255))))

/-- Post-processing bloom (renderer.rs `apply_bloom`): downsample, three
separable blur passes (`BLOOM_BLUR_PASSES = 3`), bilinear upscale with
additive blend; skipped when the downsampled image is degenerate. -/
def applyBloom (output : List ℕ) (width height : ℕ) : List ℕ :=
  let ds_w := width / BLOOM_DS_FACTOR
  let ds_h := height / BLOOM_DS_FACTOR
  if ds_w < 2 ∨ ds_h < 2 then output
  else
    let b0 := bloomDownsample output width height ds_w ds_h
    let b1 := boxBlurV (boxBlurH b0 ds_w ds_h BLOOM_BLUR_RADIUS) ds_w ds_h
      BLOOM_BLUR_RADIUS
    let b2 := boxBlurV (boxBlurH b1 ds_w ds_h BLOOM_BLUR_RADIUS) ds_w ds_h
      BLOOM_BLUR_RADIUS
    let b3 := boxBlurV (boxBlurH b2 ds_w ds_h BLOOM_BLUR_RADIUS) ds_w ds_h
      BLOOM_BLUR_RADIUS
    bloomUpscale output b3 width height ds_w ds_h

/-- Convert an RGB frame to an ASCII-art RGB frame (renderer.rs
`AsciiRenderer::render`).  `dt` is the wall-clock delta the source reads
from `Instant::now()`.  Returns the output buffer and the renderer with
its advanced rain state (the source mutates `self`).  The background is
filled first and a short frame returns it unchanged, before any input
byte is read. -/
noncomputable def AsciiRenderer.render (r : AsciiRenderer) (dt : ℚ)
    (rgb_frame : List ℕ) (frame_width frame_height : ℕ) :
    List ℕ × AsciiRenderer :=
  let output := bgFill r
  let expected := frame_width * frame_height * 3
  if rgb_frame.length < expected then (output, r)
  else
    let grayscale := rgbToGrayscale rgb_frame frame_width frame_height
    let grid : List ℝ :=
      (downsampleToGrid r grayscale frame_width frame_height).map
        (fun b => Real.sqrt (b : ℝ))
    match r.rain_state with
    | some rs =>
      let rs' := rs.advance dt
      let cells := rs'.computeCells grid r.charset r.brightness_curve
        r.invert r.fg
      let out1 := compositeRainGlyphs r cells output
      (applyBloom out1 r.output_width r.output_height,
       { r with rain_state := some rs' })
    | none =>
      if r.is_color_mode then
        let color_grid := downsampleToColorGrid r rgb_frame frame_width
          frame_height
        let chars := mapToCharacters r grid
        let cells := (grid.zip (chars.zip color_grid)).map (fun p =>
          let t0 := r.brightness_curve.apply p.1
          let t := if r.invert then 1 - t0 else t0
          ({ ch := p.2.1, color := p.2.2, intensity := t } : CellRender))
        (compositeRainGlyphs r cells output, r)
      else
        (compositeGlyphs r (mapToCharacters r grid) output, r)

/-! ### Generator-state invariant -/

/-- Well-formedness of the xorshift64 state: nonzero and in u64 range. -/
def RngGood (r : ℕ) : Prop := r ≠ 0 ∧ r < 2 ^ 64

/-- A wrapped left-shift xor step cannot map a nonzero u64 state to zero. -/
lemma xor_shiftLeft_mod_ne_zero {k : ℕ} (hk : 0 < k) {x : ℕ}
    (hlt : x < 2 ^ 64) (hx : x ≠ 0) : x ^^^ ((x <<< k) % 2 ^ 64) ≠ 0 := by
  intro h
  have hx_eq : x = (x <<< k) % 2 ^ 64 := Nat.xor_eq_zero.mp h
  have hbit : ∀ i, x.testBit i = false := by
    intro i
    induction i using Nat.strong_induction_on with
    | _ i ih =>
      by_cases h64 : i < 64
      · have hb : x.testBit i = ((x <<< k) % 2 ^ 64).testBit i := by
          rw [← hx_eq]
        rw [Nat.testBit_mod_two_pow, Nat.testBit_shiftLeft] at hb
        by_cases hki : k ≤ i
        · rw [ih (i - k) (by omega)] at hb
          simpa [h64, hki] using hb
        · simpa [h64, hki] using hb
      · exact Nat.testBit_lt_two_pow
          (lt_of_lt_of_le hlt (Nat.pow_le_pow_right (by norm_num) (by omega)))
  exact hx (Nat.eq_of_testBit_eq fun i => by rw [hbit i, Nat.zero_testBit])

/-- A right-shift xor step cannot map a nonzero state to zero. -/
lemma xor_shiftRight_ne_zero {x : ℕ} (hx : x ≠ 0) : x ^^^ (x >>> 7) ≠ 0 := by
  intro h
  have heq : x = x >>> 7 := Nat.xor_eq_zero.mp h
  rw [Nat.shiftRight_eq_div_pow] at heq
  have hdl : x / 2 ^ 7 < x := Nat.div_lt_self (Nat.pos_of_ne_zero hx) (by norm_num)
  omega

/-- One xorshift64 step preserves state well-formedness. -/
lemma xorshift64_good {x : ℕ} (h : RngGood x) : RngGood (xorshift64 x) := by
  obtain ⟨hne, hlt⟩ := h
  have hm : ∀ z : ℕ, z % 2 ^ 64 < 2 ^ 64 := fun z => Nat.mod_lt z (by norm_num)
  have h1lt : x ^^^ ((x <<< 13) % 2 ^ 64) < 2 ^ 64 := Nat.xor_lt_two_pow hlt (hm _)
  have h1ne : x ^^^ ((x <<< 13) % 2 ^ 64) ≠ 0 :=
    xor_shiftLeft_mod_ne_zero (by norm_num) hlt hne
  have h2lt : (x ^^^ ((x <<< 13) % 2 ^ 64)) ^^^
      ((x ^^^ ((x <<< 13) % 2 ^ 64)) >>> 7) < 2 ^ 64 := by
    refine Nat.xor_lt_two_pow h1lt (lt_of_le_of_lt ?_ h1lt)
    rw [Nat.shiftRight_eq_div_pow]
    exact Nat.div_le_self _ _
  have h2ne := xor_shiftRight_ne_zero h1ne
  have h3lt : ((x ^^^ ((x <<< 13) % 2 ^ 64)) ^^^
      ((x ^^^ ((x <<< 13) % 2 ^ 64)) >>> 7)) ^^^
      ((((x ^^^ ((x <<< 13) % 2 ^ 64)) ^^^
        ((x ^^^ ((x <<< 13) % 2 ^ 64)) >>> 7)) <<< 17) % 2 ^ 64) < 2 ^ 64 :=
    Nat.xor_lt_two_pow h2lt (hm _)
  have h3ne := xor_shiftLeft_mod_ne_zero (k := 17) (by norm_num) h2lt h2ne
  exact ⟨h3ne, h3lt⟩

/-- Folding a step function that preserves the rng component's
well-formedness preserves it over any list. -/
lemma foldl_rng_good {σ α : Type _} (f : σ × ℕ → α → σ × ℕ)
    (hf : ∀ s a, RngGood s.2 → RngGood (f s a).2) :
    ∀ (l : List α) (s : σ × ℕ), RngGood s.2 → RngGood (l.foldl f s).2 := by
  intro l
  induction l with
  | nil => exact fun s h => h
  | cons a tl ih => exact fun s h => ih (f s a) (hf s a h)

lemma charIndexStep_rng_good (cl : ℕ) (s : List ℕ × ℕ) (i : ℕ)
    (h : RngGood s.2) : RngGood (charIndexStep cl s i).2 := by
  unfold charIndexStep
  split_ifs
  · exact xorshift64_good h
  · exact h

lemma charTimerStep_rng_good (s : List ℕ × ℕ) (i : ℕ)
    (h : RngGood s.2) : RngGood (charTimerStep s i).2 :=
  xorshift64_good h

lemma newStream_rng_good {rng : ℕ} (rows : ℕ) (movie : Bool)
    (h : RngGood rng) : RngGood (newStream rng rows movie).2 := by
  unfold newStream
  dsimp only
  split_ifs
  · exact xorshift64_good (xorshift64_good (xorshift64_good h))
  · exact xorshift64_good (xorshift64_good h)

lemma newColumn_rng_good {rng : ℕ} (rows cl : ℕ) (movie : Bool)
    (h : RngGood rng) : RngGood (newColumn rng rows cl movie).2 := by
  unfold newColumn
  split_ifs
  · exact foldl_rng_good charTimerStep charTimerStep_rng_good _ _
      (foldl_rng_good (charIndexStep cl) (charIndexStep_rng_good cl) _ _
        (newStream_rng_good rows movie h))
  · exact foldl_rng_good (charIndexStep cl) (charIndexStep_rng_good cl) _ _
      (newStream_rng_good rows movie h)

lemma spawnIntoColumn_rng_good {rng : ℕ} (rows : ℕ) (movie : Bool)
    (col : RainColumn) (h : RngGood rng) :
    RngGood (spawnIntoColumn rng rows movie col).2 :=
  xorshift64_good (newStream_rng_good rows movie h)

lemma movieMutateStep_rng_good (cl : ℕ) (streams : List RainStream)
    (s : (List ℕ × List ℕ) × ℕ) (i : ℕ) (h : RngGood s.2) :
    RngGood (movieMutateStep cl streams s i).2 := by
  unfold movieMutateStep
  split_ifs with h1 h2 hcl
  · exact xorshift64_good (xorshift64_good h)
  · exact xorshift64_good h
  · exact h
  · exact h

lemma movieMutate_rng_good {rng : ℕ} (rows cl : ℕ) (col : RainColumn)
    (h : RngGood rng) : RngGood (movieMutate rows cl rng col).2 :=
  foldl_rng_good (movieMutateStep cl col.streams)
    (movieMutateStep_rng_good cl col.streams) _ _ h

lemma classicMutateStep_rng_good (rows cl : ℕ) (hr : ℤ) (s : List ℕ × ℕ)
    (i : ℕ) (h : RngGood s.2) :
    RngGood (classicMutateStep rows cl hr s i).2 := by
  unfold classicMutateStep
  dsimp only
  split_ifs <;> first | exact xorshift64_good h | exact h

lemma classicMutate_rng_good {rng : ℕ} (rows cl : ℕ) (col : RainColumn)
    (h : RngGood rng) : RngGood (classicMutate rows cl rng col).2 := by
  unfold classicMutate
  cases col.streams.head? with
  | none => exact h
  | some s =>
    exact foldl_rng_good (classicMutateStep rows cl (f32toI32 s.position))
      (classicMutateStep_rng_good rows cl (f32toI32 s.position)) _ _ h

lemma advanceColumn_rng_good {rng : ℕ} (rows cl : ℕ) (movie : Bool)
    (ms : ℕ) (dt : ℚ) (col : RainColumn) (h : RngGood rng) :
    RngGood (advanceColumn rows cl movie ms dt rng col).2 := by
  unfold advanceColumn
  dsimp only
  split_ifs <;>
    first
    | exact spawnIntoColumn_rng_good _ _ _ (movieMutate_rng_good _ _ _ h)
    | exact spawnIntoColumn_rng_good _ _ _ (classicMutate_rng_good _ _ _ h)
    | exact movieMutate_rng_good _ _ _ h
    | exact classicMutate_rng_good _ _ _ h

lemma advanceFoldStep_rng_good (rows cl : ℕ) (movie : Bool) (ms : ℕ)
    (dt : ℚ) (s : List RainColumn × ℕ) (col : RainColumn)
    (h : RngGood s.2) :
    RngGood (advanceFoldStep rows cl movie ms dt s col).2 :=
  advanceColumn_rng_good rows cl movie ms dt col h

lemma buildColumnStep_rng_good (rows cl : ℕ) (movie : Bool)
    (s : List RainColumn × ℕ) (i : ℕ) (h : RngGood s.2) :
    RngGood (buildColumnStep rows cl movie s i).2 :=
  newColumn_rng_good rows cl movie h

lemma staggerStep_rng_good (rows : ℕ) (s : List RainColumn × ℕ)
    (p : ℕ × RainColumn) (h : RngGood s.2) :
    RngGood (staggerStep rows s p).2 := by
  unfold staggerStep
  dsimp only
  split_ifs
  · cases hps : p.2.streams with
    | nil => exact xorshift64_good h
    | cons s0 rest => exact xorshift64_good (xorshift64_good h)
  · exact xorshift64_good h

/-- C10: the generator state is never zero: construction forces a nonzero
seed via `seed | 1`, a single xorshift64 step maps every nonzero u64
state to a nonzero state, and `advance` (whose draws all go through
`xorshift64`) preserves the invariant, so the generator can never
collapse into the all-zero fixed point. -/
theorem rng_never_zero :
    (∀ x : ℕ, RngGood x → RngGood (xorshift64 x)) ∧
    (∀ cols rows charset_len : ℕ, ∀ movie : Bool, ∀ seed : ℕ,
      RngGood (MatrixRainState.new cols rows charset_len movie seed).rng) ∧
    (∀ (s : MatrixRainState) (dt : ℚ), RngGood s.rng →
      RngGood (s.advance dt).rng) := by
  refine ⟨fun x h => xorshift64_good h, ?_, ?_⟩
  · intro cols rows charset_len movie seed
    have h0 : RngGood (seed % 2 ^ 64 ||| 1) := by
      constructor
      · intro hzero
        have hb := congrArg (fun z => Nat.testBit z 0) hzero
        simp [Nat.testBit_lor] at hb
      · exact Nat.or_lt_two_pow (Nat.mod_lt _ (by norm_num)) (by norm_num)
    have hbuilt : RngGood (((List.range cols).foldl
        (buildColumnStep rows charset_len movie) ([], seed % 2 ^ 64 ||| 1)).2) :=
      foldl_rng_good _ (buildColumnStep_rng_good rows charset_len movie) _ _ h0
    exact foldl_rng_good _ (staggerStep_rng_good rows) _ _ hbuilt
  · intro s dt h
    exact foldl_rng_good _
      (advanceFoldStep_rng_good s.rows s.charset_len s.is_movie_mode
        (if s.is_movie_mode then 3 else 1) dt) _ _ h

/-- Witness for C10 at concrete inputs: the xorshift64 step and `advance`
are applied at concrete well-formed states. -/
theorem rng_never_zero_witness :
    RngGood (xorshift64 1) ∧
    RngGood ((⟨[], 0, 0, 0, 7, false⟩ : MatrixRainState).advance 1).rng :=
  ⟨rng_never_zero.1 1 ⟨by norm_num, by norm_num⟩,
   rng_never_zero.2.2 ⟨[], 0, 0, 0, 7, false⟩ 1 ⟨by norm_num, by norm_num⟩⟩

/-! ### Column non-emptiness -/

lemma spawnIntoColumn_streams_ne_nil (rng rows : ℕ) (movie : Bool)
    (col : RainColumn) : (spawnIntoColumn rng rows movie col).1.streams ≠ [] := by
  unfold spawnIntoColumn
  dsimp only
  simp

lemma advanceColumn_streams_ne_nil (rows cl : ℕ) (movie : Bool) (ms : ℕ)
    (dt : ℚ) (rng : ℕ) (col : RainColumn) :
    (advanceColumn rows cl movie ms dt rng col).1.streams ≠ [] := by
  unfold advanceColumn
  dsimp only
  split_ifs <;>
    first
    | exact spawnIntoColumn_streams_ne_nil _ _ _ _
    | simp_all [List.isEmpty_iff]

lemma mem_advanceFold (rows cl : ℕ) (movie : Bool) (ms : ℕ) (dt : ℚ) :
    ∀ (l : List RainColumn) (acc : List RainColumn × ℕ),
      (∀ c ∈ acc.1, c.streams ≠ []) →
      ∀ c ∈ (l.foldl (advanceFoldStep rows cl movie ms dt) acc).1,
        c.streams ≠ [] := by
  intro l
  induction l with
  | nil => exact fun acc h => h
  | cons a tl ih =>
    intro acc hacc c hc
    refine ih (advanceFoldStep rows cl movie ms dt acc a) ?_ c hc
    intro b hb
    unfold advanceFoldStep at hb
    dsimp only at hb
    rcases List.mem_append.mp hb with h | h
    · exact hacc b h
    · rw [List.mem_singleton] at h
      subst h
      exact advanceColumn_streams_ne_nil rows cl movie ms dt acc.2 a

/-- C2: for any simulation state and any finite nonempty sequence of
`advance` calls with arbitrary `dt` values, every column's stream vector
is non-empty immediately after the last `advance` returns (and, since
the starting state is arbitrary, after every intermediate `advance` as
well) — including a tick in which a column's only remaining stream is
retired past the bottom edge, because retirement and respawn are
resolved in the same tick. -/
theorem advance_columns_nonempty (s : MatrixRainState) (dts : List ℚ)
    (h : dts ≠ []) :
    ∀ col ∈ (dts.foldl MatrixRainState.advance s).columns,
      col.streams ≠ [] := by
  induction dts generalizing s with
  | nil => exact absurd rfl h
  | cons dt tl ih =>
    cases tl with
    | nil =>
      intro col hcol
      simp only [List.foldl_cons, List.foldl_nil] at hcol
      unfold MatrixRainState.advance at hcol
      dsimp only at hcol
      exact mem_advanceFold _ _ _ _ _ s.columns ([], s.rng)
        (fun b hb => absurd hb (List.not_mem_nil b)) col hcol
    | cons dt2 tl2 =>
      intro col hcol
      rw [List.foldl_cons] at hcol
      exact ih (s.advance dt) (by simp) col hcol

/-- Witness for C2: a concrete state and a concrete nonempty tick
sequence. -/
theorem advance_columns_nonempty_witness :
    ([(1 : ℚ)] ≠ []) ∧
    (∀ col ∈ (([(1 : ℚ)]).foldl MatrixRainState.advance
        (⟨[⟨[], [], [], 0⟩], 4, 1, 2, 5, false⟩ : MatrixRainState)).columns,
      col.streams ≠ []) :=
  ⟨by simp, advance_columns_nonempty _ _ (by simp)⟩

/-- C9: every spawn performed by `advance` — both the empty-column
respawn and the spawn-into-capacity case go through `spawnIntoColumn` —
arms the column's spawn cooldown with `xorshift64 % 40 + 20`, a value in
the range 20–60 ticks, so respawn is rate-limited per column. -/
theorem spawn_cooldown_in_range (rng rows : ℕ) (movie : Bool)
    (col : RainColumn) :
    20 ≤ (spawnIntoColumn rng rows movie col).1.spawn_cooldown ∧
    (spawnIntoColumn rng rows movie col).1.spawn_cooldown ≤ 60 := by
  unfold spawnIntoColumn
  dsimp only
  have h := Nat.mod_lt (xorshift64 (newStream rng rows movie).2)
    (show 0 < 40 by norm_num)
  omega

/-- C5: the whole animation is a deterministic function of the seed and
the `dt` sequence: two states constructed with identical parameters and
the same seed, advanced with the same `dt` values and queried with the
same inputs, produce identical cell outputs.  In this embedding all
randomness is threaded through the single xorshift64 state, so equal
inputs force equal outputs. -/
theorem rain_animation_deterministic (cols rows charset_len : ℕ)
    (movie : Bool) (seed : ℕ) (dts : List ℚ) (grid : List ℝ)
    (charset : List Char) (curve : BrightnessCurve) (invert : Bool)
    (fg : Rgb) (s1 s2 : MatrixRainState)
    (h1 : s1 = MatrixRainState.new cols rows charset_len movie seed)
    (h2 : s2 = MatrixRainState.new cols rows charset_len movie seed) :
    (dts.foldl MatrixRainState.advance s1).computeCells grid charset curve
      invert fg =
    (dts.foldl MatrixRainState.advance s2).computeCells grid charset curve
      invert fg := by
  rw [h1, h2]

/-- Witness for C5 at concrete parameters. -/
theorem rain_animation_deterministic_witness :
    (([(1 : ℚ)]).foldl MatrixRainState.advance
        (MatrixRainState.new 1 2 3 true 9)).computeCells [] [] .linear false
        ⟨0, 255, 0⟩ =
    (([(1 : ℚ)]).foldl MatrixRainState.advance
        (MatrixRainState.new 1 2 3 true 9)).computeCells [] [] .linear false
        ⟨0, 255, 0⟩ :=
  rain_animation_deterministic 1 2 3 true 9 [1] [] [] .linear false ⟨0, 255, 0⟩
    _ _ rfl rfl

/-! ### Brightness-curve endpoint and monotonicity facts -/

lemma one_div_one_add_exp_lt {a b : ℝ} (h : a < b) :
    1 / (1 + Real.exp b) < 1 / (1 + Real.exp a) :=
  one_div_lt_one_div_of_lt (by positivity)
    (add_lt_add_left (Real.exp_lt_exp.mpr h) 1)

lemma one_div_one_add_exp_le {a b : ℝ} (h : a ≤ b) :
    1 / (1 + Real.exp b) ≤ 1 / (1 + Real.exp a) :=
  one_div_le_one_div_of_le (by positivity)
    (add_le_add_left (Real.exp_le_exp.mpr h) 1)

lemma sigmoid_lo_lt_hi :
    1 / (1 + Real.exp ((10 : ℝ) * 0.5)) <
      1 / (1 + Real.exp (-(10 : ℝ) * 0.5)) :=
  one_div_one_add_exp_lt (by norm_num)

lemma brightness_apply_zero (c : BrightnessCurve) : c.apply 0 = 0 := by
  cases c
  · rfl
  · show (0 : ℝ) * 0 = 0
    ring
  · show (1 / (1 + Real.exp (-(10 : ℝ) * ((0 : ℝ) - 0.5))) -
        1 / (1 + Real.exp ((10 : ℝ) * 0.5))) /
      (1 / (1 + Real.exp (-(10 : ℝ) * 0.5)) -
        1 / (1 + Real.exp ((10 : ℝ) * 0.5))) = 0
    rw [show -(10 : ℝ) * ((0 : ℝ) - 0.5) = (10 : ℝ) * 0.5 by norm_num]
    rw [sub_self, zero_div]

lemma brightness_apply_one (c : BrightnessCurve) : c.apply 1 = 1 := by
  cases c
  · rfl
  · show (1 : ℝ) * 1 = 1
    ring
  · show (1 / (1 + Real.exp (-(10 : ℝ) * ((1 : ℝ) - 0.5))) -
        1 / (1 + Real.exp ((10 : ℝ) * 0.5))) /
      (1 / (1 + Real.exp (-(10 : ℝ) * 0.5)) -
        1 / (1 + Real.exp ((10 : ℝ) * 0.5))) = 1
    rw [show -(10 : ℝ) * ((1 : ℝ) - 0.5) = -(10 : ℝ) * 0.5 by norm_num]
    exact div_self (ne_of_gt (sub_pos.mpr sigmoid_lo_lt_hi))

lemma brightness_apply_mono (c : BrightnessCurve) {a b : ℝ} (h0 : 0 ≤ a)
    (hab : a ≤ b) : c.apply a ≤ c.apply b := by
  cases c
  · exact hab
  · exact mul_self_le_mul_self h0 hab
  · show (1 / (1 + Real.exp (-(10 : ℝ) * (a - 0.5))) -
        1 / (1 + Real.exp ((10 : ℝ) * 0.5))) /
      (1 / (1 + Real.exp (-(10 : ℝ) * 0.5)) -
        1 / (1 + Real.exp ((10 : ℝ) * 0.5))) ≤
      (1 / (1 + Real.exp (-(10 : ℝ) * (b - 0.5))) -
        1 / (1 + Real.exp ((10 : ℝ) * 0.5))) /
      (1 / (1 + Real.exp (-(10 : ℝ) * 0.5)) -
        1 / (1 + Real.exp ((10 : ℝ) * 0.5)))
    have hraw : 1 / (1 + Real.exp (-(10 : ℝ) * (a - 0.5))) ≤
        1 / (1 + Real.exp (-(10 : ℝ) * (b - 0.5))) :=
      one_div_one_add_exp_le (by nlinarith)
    have hpos := sub_pos.mpr sigmoid_lo_lt_hi
    exact (div_le_div_iff_of_pos_right hpos).mpr (by linarith)

lemma brightness_apply_mem_unit (c : BrightnessCurve) {t : ℝ} (h0 : 0 ≤ t)
    (h1 : t ≤ 1) : 0 ≤ c.apply t ∧ c.apply t ≤ 1 := by
  constructor
  · have h := brightness_apply_mono c (le_refl (0 : ℝ)) h0
    rwa [brightness_apply_zero] at h
  · have h := brightness_apply_mono c h0 h1
    rwa [brightness_apply_one] at h

/-- C8: for every brightness curve the endpoints are mapped exactly to
the curve-specific floor and ceiling, which are 0 and 1 for all three
curves; in particular the sigmoid's renormalization makes `apply 0 = 0`
and `apply 1 = 1` hold exactly, not merely approximately. -/
theorem brightness_curve_endpoints :
    ∀ c : BrightnessCurve, c.apply 0 = 0 ∧ c.apply 1 = 1 :=
  fun c => ⟨brightness_apply_zero c, brightness_apply_one c⟩

/-! ### Character mapping -/

/-- A concrete renderer with inversion enabled, a two-character set and
the linear curve, used to exhibit the behavior of `map_to_characters`
under `invert = true`. -/
def invertRenderer : AsciiRenderer :=
  { glyph_cache := ⟨fun _ => none, 1, 1, 0⟩, charset := ['a', 'b'],
    fg := ⟨0, 255, 0⟩, bg := ⟨0, 0, 0⟩, brightness_curve := .linear,
    invert := true, output_width := 10, output_height := 10,
    ascii_cols := 1, ascii_rows := 1, ascent := 0, rain_state := none,
    is_color_mode := false }

/-- The same renderer with inversion disabled. -/
def plainRenderer : AsciiRenderer :=
  { invertRenderer with invert := false }

/-- C7 counterexample: with every other part of the configuration fixed
but `invert = true` — a legal renderer configuration — increasing the
input brightness from 0 to 1 moves the selected character index down
from 1 to 0, so the mapping as claimed (monotone for every fixed
configuration) is false. -/
theorem map_to_characters_not_monotone :
    mapCharIndex invertRenderer 1 < mapCharIndex invertRenderer 0 := by
  have h1 : mapCharIndex invertRenderer 1 = 0 := by
    unfold mapCharIndex invertRenderer
    norm_num [BrightnessCurve.apply]
  have h0 : mapCharIndex invertRenderer 0 = 1 := by
    unfold mapCharIndex invertRenderer
    norm_num [BrightnessCurve.apply]
  rw [h0, h1]
  norm_num

/-- C7 (amended): for a fixed non-empty character set and a fixed
brightness curve, with the inversion flag off — the flag reverses the
mapping by design — the character mapping is monotone: a brighter input
in `[0,1]` never selects an earlier (lower-index) character. -/
theorem map_to_characters_monotone (r : AsciiRenderer)
    (hinv : r.invert = false) (_hne : r.charset ≠ []) (b1 b2 : ℝ)
    (h0 : 0 ≤ b1) (h12 : b1 ≤ b2) (_h1 : b2 ≤ 1) :
    mapCharIndex r b1 ≤ mapCharIndex r b2 := by
  unfold mapCharIndex
  simp only [hinv, Bool.false_eq_true, if_false]
  have hm := brightness_apply_mono r.brightness_curve h0 h12
  have hcast : (0 : ℝ) ≤ ((r.charset.length - 1 : ℕ) : ℝ) := Nat.cast_nonneg _
  have hround : round (r.brightness_curve.apply b1 *
      ((r.charset.length - 1 : ℕ) : ℝ)) ≤
      round (r.brightness_curve.apply b2 * ((r.charset.length - 1 : ℕ) : ℝ)) := by
    rw [round_eq, round_eq]
    apply Int.floor_mono
    nlinarith
  exact min_le_min (Int.toNat_le_toNat hround) le_rfl

/-- Witness for the amended C7 at a concrete non-inverted renderer. -/
theorem map_to_characters_monotone_witness :
    mapCharIndex plainRenderer 0 ≤ mapCharIndex plainRenderer (1 / 2) :=
  map_to_characters_monotone plainRenderer rfl (by decide) 0 (1 / 2)
    le_rfl (by norm_num) (by norm_num)

/-! ### Rebuild handling -/

/-- A font backend that always fails, exercising the rebuild error
path. -/
def failingFontBackend : FontBackend :=
  fun _ _ _ _ => .error ("font unavailable")

/-- A concrete rebuild command. -/
def sampleRebuildCmd : RebuildCmd :=
  { charset := [' ', '#'], ascii_columns := 40, fg := ⟨0, 255, 0⟩,
    bg := ⟨0, 0, 0⟩, brightness_curve := .linear, invert := false,
    theme_name := "matrix" }

/-- C6: when a `Rebuild` command's renderer construction fails, the
render worker keeps the previously active renderer (so subsequent frames
are rendered with the unchanged old configuration) and sends `Err` on the
command's reply channel; the active renderer is replaced only when
construction of the new one succeeds, since the `Ok` branch is the only
one that installs a new renderer. -/
theorem rebuild_failure_keeps_renderer (fontNew : FontBackend) (seed : ℕ)
    (renderer : AsciiRenderer) (cmd : RebuildCmd) (e : String)
    (h : AsciiRenderer.new fontNew seed cmd.charset cmd.fg cmd.bg
      cmd.brightness_curve cmd.invert renderer.output_width
      renderer.output_height cmd.ascii_columns cmd.theme_name =
      Except.error e) :
    handleRebuild fontNew seed renderer cmd = (renderer, Except.error e) := by
  unfold handleRebuild
  rw [h]

/-- Witness for C6: a failing font backend at a concrete renderer and
command. -/
theorem rebuild_failure_keeps_renderer_witness :
    handleRebuild failingFontBackend 0 plainRenderer sampleRebuildCmd =
      (plainRenderer, Except.error ("font unavailable")) :=
  rebuild_failure_keeps_renderer failingFontBackend 0 plainRenderer
    sampleRebuildCmd ("font unavailable") rfl

/-! ### Ghost-trail intensity -/

/-- C4: in rich (movie) mode, for a stream with `ghost_length > 0`, the
ghost-trail branch of `compute_cells` yields `ghostIntensity` at the
cell's distance; that intensity equals exactly 0.18 at
`distance = trail_length` and is strictly decreasing in the distance over
`trail_length ≤ d < trail_length + ghost_length`. -/
theorem ghost_trail_decreasing (fg : Rgb) (s : RainStream) (row : ℕ)
    (trail ghost d1 d2 : ℕ)
    (hs : s.trail_length = trail) (hgh : s.ghost_length = ghost)
    (hd : f32toI32 s.position - i32ofNat row = (d1 : ℤ))
    (htr : 0 < trail) (hg : 0 < ghost) (h1 : trail ≤ d1) (h12 : d1 < d2)
    (h2 : d2 < trail + ghost) :
    streamContribution fg row s =
      some (ghostIntensity trail ghost d1, colorFor (d1 : ℤ) fg) ∧
    ghostIntensity trail ghost trail = 0.18 ∧
    ghostIntensity trail ghost d2 < ghostIntensity trail ghost d1 := by
  refine ⟨?_, ?_, ?_⟩
  · unfold streamContribution
    dsimp only
    rw [hs, hgh, hd]
    rw [if_neg (by omega), if_neg (by omega), Int.toNat_natCast,
      if_neg (by omega), if_pos (by omega)]
  · unfold ghostIntensity
    rw [Nat.sub_self]
    norm_num
  · unfold ghostIntensity
    have hgq : (0 : ℚ) < (ghost : ℚ) := by exact_mod_cast hg
    have e1 : ((d1 - trail : ℕ) : ℚ) = (d1 : ℚ) - (trail : ℚ) :=
      Nat.cast_sub h1
    have e2 : ((d2 - trail : ℕ) : ℚ) = (d2 : ℚ) - (trail : ℚ) :=
      Nat.cast_sub (by omega)
    rw [e1, e2]
    have hc2 : (d2 : ℚ) < (trail : ℚ) + (ghost : ℚ) := by exact_mod_cast h2
    have hc12 : (d1 : ℚ) < (d2 : ℚ) := by exact_mod_cast h12
    have ht2 : ((d2 : ℚ) - (trail : ℚ)) / (ghost : ℚ) < 1 :=
      (div_lt_one hgq).mpr (by linarith)
    have ht12 : ((d1 : ℚ) - (trail : ℚ)) / (ghost : ℚ) <
        ((d2 : ℚ) - (trail : ℚ)) / (ghost : ℚ) :=
      (div_lt_div_iff_of_pos_right hgq).mpr (by linarith)
    have hB : (0 : ℚ) ≤ 1 - ((d2 : ℚ) - (trail : ℚ)) / (ghost : ℚ) := by
      linarith
    have hAB : 1 - ((d2 : ℚ) - (trail : ℚ)) / (ghost : ℚ) <
        1 - ((d1 : ℚ) - (trail : ℚ)) / (ghost : ℚ) := by linarith
    nlinarith [mul_self_lt_mul_self hB hAB]

/-- Witness for C4 at a concrete stream: head at row 5, trail 5, ghost 4,
queried at row 0, distances 5 and 6. -/
theorem ghost_trail_decreasing_witness :
    streamContribution ⟨0, 255, 0⟩ 0 ⟨5, 1, 5, 4⟩ =
      some (ghostIntensity 5 4 5, colorFor (5 : ℤ) ⟨0, 255, 0⟩) ∧
    ghostIntensity 5 4 5 = 0.18 ∧
    ghostIntensity 5 4 6 < ghostIntensity 5 4 5 :=
  ghost_trail_decreasing ⟨0, 255, 0⟩ ⟨5, 1, 5, 4⟩ 0 5 4 5 6 rfl rfl
    (by norm_num [f32toI32, ratTrunc, i32ofNat])
    (by norm_num) (by norm_num) (by norm_num) (by norm_num) (by norm_num)

/-! ### Intensity bounds -/

lemma streamContribution_intensity_bounds (fg : Rgb) (row : ℕ)
    (s : RainStream) (i : ℚ) (c : Rgb)
    (h : streamContribution fg row s = some (i, c)) : 0 ≤ i ∧ i ≤ 1 := by
  unfold streamContribution at h
  dsimp only at h
  split_ifs at h with h0 hneg hact hghost
  · rw [Option.some.injEq, Prod.mk.injEq] at h
    obtain ⟨hi, hc⟩ := h
    subst hi
    unfold activeIntensity
    have hT : (0 : ℚ) < (s.trail_length : ℚ) := by
      exact_mod_cast Nat.pos_of_ne_zero h0
    have hdT : (((f32toI32 s.position - i32ofNat row).toNat : ℕ) : ℚ) <
        (s.trail_length : ℚ) := by exact_mod_cast hact
    have ht0 : (0 : ℚ) ≤
        (((f32toI32 s.position - i32ofNat row).toNat : ℕ) : ℚ) /
          (s.trail_length : ℚ) := by positivity
    have ht1 : (((f32toI32 s.position - i32ofNat row).toNat : ℕ) : ℚ) /
        (s.trail_length : ℚ) < 1 := (div_lt_one hT).mpr hdT
    constructor
    · exact mul_self_nonneg _
    · nlinarith
  · rw [Option.some.injEq, Prod.mk.injEq] at h
    obtain ⟨hi, hc⟩ := h
    subst hi
    unfold ghostIntensity
    obtain ⟨hg, hlt⟩ := hghost
    have hgq : (0 : ℚ) < (s.ghost_length : ℚ) := by exact_mod_cast hg
    have h0g : (0 : ℚ) ≤
        (((f32toI32 s.position - i32ofNat row).toNat - s.trail_length : ℕ) : ℚ) /
          (s.ghost_length : ℚ) := by positivity
    have h1g : (((f32toI32 s.position - i32ofNat row).toNat -
        s.trail_length : ℕ) : ℚ) / (s.ghost_length : ℚ) < 1 := by
      refine (div_lt_one hgq).mpr ?_
      exact_mod_cast (by omega :
        (f32toI32 s.position - i32ofNat row).toNat - s.trail_length <
          s.ghost_length)
    constructor
    · nlinarith
    · nlinarith

lemma bestStreamStep_bounds (fg : Rgb) (row : ℕ) (acc : ℚ × Rgb × Bool)
    (s : RainStream) (h : 0 ≤ acc.1 ∧ acc.1 ≤ 1) :
    0 ≤ (bestStreamStep fg row acc s).1 ∧
      (bestStreamStep fg row acc s).1 ≤ 1 := by
  unfold bestStreamStep
  cases hc : streamContribution fg row s with
  | none => exact h
  | some p =>
    obtain ⟨i, c⟩ := p
    dsimp only
    split_ifs with hlt
    · exact streamContribution_intensity_bounds fg row s i c hc
    · exact h

lemma bestStream_bounds (fg : Rgb) (row : ℕ) (streams : List RainStream) :
    0 ≤ (bestStream fg row streams).1 ∧ (bestStream fg row streams).1 ≤ 1 := by
  unfold bestStream
  suffices H : ∀ (l : List RainStream) (acc : ℚ × Rgb × Bool),
      0 ≤ acc.1 ∧ acc.1 ≤ 1 →
      0 ≤ (l.foldl (bestStreamStep fg row) acc).1 ∧
        (l.foldl (bestStreamStep fg row) acc).1 ≤ 1 by
    exact H streams (0, fg, false) ⟨le_refl 0, by norm_num⟩
  intro l
  induction l with
  | nil => exact fun acc h => h
  | cons a tl ih =>
    exact fun acc h => ih (bestStreamStep fg row acc a)
      (bestStreamStep_bounds fg row acc a h)

/-- C3: every cell produced by `compute_cells` has intensity in `[0,1]`,
for every state, every brightness grid with values in `[0,1]`, every
character set, curve, inversion flag and foreground color — in the rain,
movie-background and classic branches alike. -/
theorem compute_cells_intensity_bounded (s : MatrixRainState)
    (grid : List ℝ) (charset : List Char) (curve : BrightnessCurve)
    (invert : Bool) (fg : Rgb)
    (hgrid : ∀ b ∈ grid, 0 ≤ b ∧ b ≤ 1) :
    ∀ cell ∈ s.computeCells grid charset curve invert fg,
      0 ≤ cell.intensity ∧ cell.intensity ≤ 1 := by
  intro cell hcell
  unfold MatrixRainState.computeCells at hcell
  simp only [List.mem_flatMap, List.mem_map, List.mem_range] at hcell
  obtain ⟨row, hrow, col, hcol, hc⟩ := hcell
  subst hc
  have hg : 0 ≤ grid.getD (row * s.cols + col) 0 ∧
      grid.getD (row * s.cols + col) 0 ≤ 1 := by
    rcases lt_or_ge (row * s.cols + col) grid.length with hlen | hlen
    · apply hgrid
      rw [List.getD_eq_getElem?_getD, List.getElem?_eq_getElem hlen]
      exact List.getElem_mem hlen
    · rw [List.getD_eq_default _ _ hlen]
      norm_num
  have happ := brightness_apply_mem_unit curve hg.1 hg.2
  rcases happ with ⟨ha0, ha1⟩
  have hb := bestStream_bounds fg row
    (s.columns.getD col ⟨[], [], [], 0⟩).streams
  have hb0 : (0 : ℝ) ≤ ((bestStream fg row
      (s.columns.getD col ⟨[], [], [], 0⟩).streams).1 : ℝ) := by
    exact_mod_cast hb.1
  have hb1 : ((bestStream fg row
      (s.columns.getD col ⟨[], [], [], 0⟩).streams).1 : ℝ) ≤ 1 := by
    exact_mod_cast hb.2
  split_ifs <;> constructor <;> dsimp only <;>
    nlinarith [hb0, hb1, ha0, ha1]

/-- Witness for C3 at a concrete state and grid. -/
theorem compute_cells_intensity_bounded_witness :
    (∀ b ∈ [(1 : ℝ) / 2], 0 ≤ b ∧ b ≤ 1) ∧
    (∀ cell ∈ (⟨[⟨[⟨2, 20, 4, 2⟩], [0], [3], 1⟩], 1, 1, 3, 11, true⟩ :
        MatrixRainState).computeCells [(1 : ℝ) / 2] ['a'] .sigmoid true
        ⟨0, 255, 0⟩,
      0 ≤ cell.intensity ∧ cell.intensity ≤ 1) :=
  ⟨by intro b hb; rw [List.mem_singleton] at hb; subst hb; norm_num,
   compute_cells_intensity_bounded _ _ _ _ _ _
    (by intro b hb; rw [List.mem_singleton] at hb; subst hb; norm_num)⟩

/-! ### Short-frame rendering -/

lemma flatten_replicate_triple_length (a b c : ℕ) (n : ℕ) :
    ((List.replicate n [a, b, c]).flatten).length = n * 3 := by
  induction n with
  | zero => rfl
  | succ m ih =>
    rw [List.replicate_succ, List.flatten_cons, List.length_append, ih]
    simp
    omega

lemma flatten_replicate_triple_getD (a b c : ℕ) :
    ∀ (n i : ℕ), i < n →
      ((List.replicate n [a, b, c]).flatten.getD (3 * i) 0 = a ∧
       (List.replicate n [a, b, c]).flatten.getD (3 * i + 1) 0 = b ∧
       (List.replicate n [a, b, c]).flatten.getD (3 * i + 2) 0 = c) := by
  intro n
  induction n with
  | zero => exact fun i h => absurd h (by omega)
  | succ m ih =>
    intro i hi
    rw [List.replicate_succ, List.flatten_cons]
    cases i with
    | zero =>
      refine ⟨?_, ?_, ?_⟩ <;>
        · rw [List.getD_append _ _ _ _ (by norm_num)]
          norm_num
    | succ j =>
      obtain ⟨ha, hb, hc⟩ := ih j (by omega)
      refine ⟨?_, ?_, ?_⟩
      · rw [List.getD_append_right _ _ _ _ (by simp only [List.length_cons, List.length_nil]; omega),
          show 3 * (j + 1) - [a, b, c].length = 3 * j by simp only [List.length_cons, List.length_nil]; omega]
        exact ha
      · rw [List.getD_append_right _ _ _ _ (by simp only [List.length_cons, List.length_nil]; omega),
          show 3 * (j + 1) + 1 - [a, b, c].length = 3 * j + 1 by simp only [List.length_cons, List.length_nil]; omega]
        exact hb
      · rw [List.getD_append_right _ _ _ _ (by simp only [List.length_cons, List.length_nil]; omega),
          show 3 * (j + 1) + 2 - [a, b, c].length = 3 * j + 2 by simp only [List.length_cons, List.length_nil]; omega]
        exact hc

lemma bgFill_length (r : AsciiRenderer) :
    (bgFill r).length = r.output_width * r.output_height * 3 :=
  flatten_replicate_triple_length r.bg.r r.bg.g r.bg.b
    (r.output_width * r.output_height)

lemma bgFill_pixel (r : AsciiRenderer) (i : ℕ)
    (h : i < r.output_width * r.output_height) :
    (bgFill r).getD (3 * i) 0 = r.bg.r ∧
    (bgFill r).getD (3 * i + 1) 0 = r.bg.g ∧
    (bgFill r).getD (3 * i + 2) 0 = r.bg.b :=
  flatten_replicate_triple_getD r.bg.r r.bg.g r.bg.b
    (r.output_width * r.output_height) i h

/-- C1: `render` on an input shorter than `frame_width * frame_height * 3`
bytes returns the freshly filled background buffer: exactly
`output_width * output_height * 3` bytes, every pixel equal to the
configured background color.  The result is the same for any two short
inputs, because the guard returns before any input byte is read — the
function never reads past the input's bounds and, being total, never
panics on this path. -/
theorem render_short_frame_blank (r : AsciiRenderer) (dt dt2 : ℚ)
    (frame frame2 : List ℕ) (fw fh : ℕ)
    (h : frame.length < fw * fh * 3) (h2 : frame2.length < fw * fh * 3) :
    (r.render dt frame fw fh).1 = bgFill r ∧
    (r.render dt frame fw fh).1 = (r.render dt2 frame2 fw fh).1 ∧
    (r.render dt frame fw fh).1.length =
      r.output_width * r.output_height * 3 ∧
    ∀ i < r.output_width * r.output_height,
      (r.render dt frame fw fh).1.getD (3 * i) 0 = r.bg.r ∧
      (r.render dt frame fw fh).1.getD (3 * i + 1) 0 = r.bg.g ∧
      (r.render dt frame fw fh).1.getD (3 * i + 2) 0 = r.bg.b := by
  have hr : r.render dt frame fw fh = (bgFill r, r) := by
    unfold AsciiRenderer.render
    dsimp only
    rw [if_pos h]
  have hr2 : r.render dt2 frame2 fw fh = (bgFill r, r) := by
    unfold AsciiRenderer.render
    dsimp only
    rw [if_pos h2]
  rw [hr, hr2]
  exact ⟨rfl, rfl, bgFill_length r, fun i hi => bgFill_pixel r i hi⟩

/-- Witness for C1: a renderer with a 2x2 output, an empty frame and a
one-byte frame against a claimed 1x1 input. -/
theorem render_short_frame_blank_witness :
    ((plainRenderer.render 1 [] 1 1).1 = bgFill plainRenderer ∧
     (plainRenderer.render 1 [] 1 1).1 = (plainRenderer.render 2 [7] 1 1).1 ∧
     (plainRenderer.render 1 [] 1 1).1.length =
       plainRenderer.output_width * plainRenderer.output_height * 3 ∧
     ∀ i < plainRenderer.output_width * plainRenderer.output_height,
       (plainRenderer.render 1 [] 1 1).1.getD (3 * i) 0 = plainRenderer.bg.r ∧
       (plainRenderer.render 1 [] 1 1).1.getD (3 * i + 1) 0 =
         plainRenderer.bg.g ∧
       (plainRenderer.render 1 [] 1 1).1.getD (3 * i + 2) 0 =
         plainRenderer.bg.b) :=
  render_short_frame_blank plainRenderer 1 2 [] [7] 1 1 (by norm_num)
    (by norm_num)
